import Mathlib

/-!
Verification of the yamz-2 fragment: the config bootstrap in app.py and the
diagnostic script check_db.py. The database is modelled as the list of rows
of the Term table, in the order the queries return them. Each query of
check_database is translated into a Lean definition, and the printed output
is modelled as the list of lines written to standard output.
-/

set_option autoImplicit false

/-- A row of the Term table, as used by check_db.py: fields id,
term_string and status (from app.term.models, accessed in lines 17 and 24
of check_db.py). -/
structure Term where
  id : Nat
  term_string : String
  status : String
deriving DecidableEq, Repr

/-- ASCII lowering of one character, the case folding SQL lower applies
to the operands of ILIKE. -/
def lowerChar (c : Char) : Char :=
  if c.isUpper then Char.ofNat (c.toNat + 32) else c

/-- Case folding of a string to a character list: lower every character. -/
def lowerStr (s : String) : List Char :=
  s.data.map lowerChar

/-- SQL LIKE pattern matching over character lists: the percent wildcard
matches any sequence of characters, underscore matches exactly one
character, every other pattern character matches itself. -/
def likeMatch : List Char → List Char → Bool
  | [], s => s.isEmpty
  | c :: ps, s =>
    if c == '%' then (s.tails).any fun t => likeMatch ps t
    else
      match s with
      | [] => false
      | a :: s2 => (c == '_' || c == a) && likeMatch ps s2

/-- SQL ILIKE: case-insensitive LIKE, lowering both the column value and
the pattern (check_db.py line 22: Term.term_string.ilike). -/
def ilike (s pat : String) : Bool :=
  likeMatch (lowerStr pat) (lowerStr s)

/-- check_db.py line 10: Term.query.filter_by(term_string=...).first() with
argument White ice — the first row whose term_string equals it exactly. -/
def white_ice (db : List Term) : Option Term :=
  (db.filter fun t => t.term_string == "White ice").head?

/-- check_db.py line 11: the same exact-match lookup for Young ice. -/
def young_ice (db : List Term) : Option Term :=
  (db.filter fun t => t.term_string == "Young ice").head?

/-- check_db.py line 15: Term.query.count(), the number of rows. -/
def totalTerms (db : List Term) : Nat :=
  db.length

/-- check_db.py line 18: Term.query.limit(10).all(). -/
def firstTen (db : List Term) : List Term :=
  db.take 10

/-- check_db.py line 22: Term.query.filter(Term.term_string.ilike(pattern
percent-ice-percent)).all(). -/
def ice_terms (db : List Term) : List Term :=
  db.filter fun t => ilike t.term_string "%ice%"

/-- Rendering of a Python bool inside an f-string. -/
def pyBool (b : Bool) : String :=
  if b then "True" else "False"

/-- check_db.py line 19: one line of the first-ten listing. -/
def termLine (t : Term) : String :=
  "- " ++ t.term_string ++ " (ID: " ++ toString t.id ++ ", Status: " ++ t.status ++ ")"

/-- check_db.py line 25: one line of the ice listing. -/
def iceLine (t : Term) : String :=
  "- " ++ t.term_string

/-- The line of check_db.py line 23 reporting the ice count. -/
def ice_count_line (db : List Term) : String :=
  "Terms containing \x27ice\x27: " ++ toString (ice_terms db).length

/-- The whole standard output of check_database (check_db.py lines 6 to 25)
as a list of lines: a leading backslash-n inside a print becomes an empty
line. -/
def check_database (db : List Term) : List String :=
  ["White ice exists: " ++ pyBool (white_ice db).isSome,
   "Young ice exists: " ++ pyBool (young_ice db).isSome,
   "Total terms in database: " ++ toString (totalTerms db),
   "",
   "First 10 terms:"]
  ++ (firstTen db).map termLine
  ++ ["", ice_count_line db]
  ++ (ice_terms db).map iceLine

/-- Written from the spec words for the refinement claim C1: a row whose
term_string case-insensitively contains the substring ice. -/
def spec_ci_contains (sub s : String) : Prop :=
  lowerStr sub <:+: lowerStr s

instance (sub s : String) : Decidable (spec_ci_contains sub s) := by
  unfold spec_ci_contains
  infer_instance

/-- The database operations the diagnostic script can issue. The four
query operations are the ones check_db.py uses; the two write operations
exist in the operation language so that the read-only frame property is a
statement about which operations the script issues, not a tautology of the
operation type. -/
inductive DBOp where
  | filterByFirst (key : String)
  | countRows
  | limitAll (n : Nat)
  | filterIlikeAll (pat : String)
  | insertRow (t : Term)
  | deleteWhere (key : String)
deriving DecidableEq, Repr

/-- Effect of an operation on the table state: queries read without
modifying, the write operations change the row list. -/
def DBOp.exec : DBOp → List Term → List Term
  | .insertRow t, db => db ++ [t]
  | .deleteWhere k, db => db.filter fun t => !(t.term_string == k)
  | .filterByFirst _, db => db
  | .countRows, db => db
  | .limitAll _, db => db
  | .filterIlikeAll _, db => db

/-- The sequence of database operations check_database issues, in source
order (check_db.py lines 10, 11, 15, 18 and 22). -/
def check_database_ops : List DBOp :=
  [.filterByFirst "White ice", .filterByFirst "Young ice", .countRows,
   .limitAll 10, .filterIlikeAll "%ice%"]

/-- Running a list of operations against a failure oracle: err op = some e
when that operation raises the database error e. The first failure aborts
the run and the error value propagates unchanged; check_db.py installs no
handler. -/
def runOps (err : DBOp → Option String) : List DBOp → Except String Unit
  | [] => Except.ok ()
  | op :: rest =>
    match err op with
    | some e => Except.error e
    | none => runOps err rest

/-- Process exit status of the script (check_db.py lines 27 and 28): zero
when check_database returns normally, one when an unhandled exception
terminates the interpreter. -/
def script_exit_code (err : DBOp → Option String) : Nat :=
  match runOps err check_database_ops with
  | Except.ok _ => 0
  | Except.error _ => 1

/-- An application instance: its configuration mapping, as an association
list in which the first binding of a key is the effective one. -/
structure FlaskApp where
  config : List (String × String)
deriving DecidableEq, Repr

/-- Python str.isupper on an attribute name: at least one cased character
and no lowercase one. Flask from_object copies exactly the attributes
whose name satisfies this. -/
def isUpperName (k : String) : Bool :=
  (k.data.any fun c => c.isUpper || c.isLower) && (k.data.all fun c => !c.isLower)

/-- app.py line 9: app.config.from_object(Config) copies every uppercase
attribute of the configuration object into the config mapping, overriding
any earlier binding (modelled by prepending, lookup taking the first
binding). -/
def from_object (base obj : List (String × String)) : List (String × String) :=
  (obj.filter fun kv => isUpperName kv.1) ++ base

/-- Modelled from the spec: create_app is imported by check_db.py line 3
from the app package, but its definition is not among the provided
sources. Per the spec contract for the app factory it produces a
ready-to-serve application instance with the configuration values from the
given configuration object applied, exactly as app.py lines 8 and 9 do for
the module-level app: a fresh application whose config is populated from
the object. -/
def create_app (cfg : List (String × String)) : FlaskApp :=
  { config := from_object [] cfg }

/-- A leading percent wildcard matches exactly when some suffix of the
string matches the rest of the pattern. -/
theorem likeMatch_pct_iff (ps : List Char) (s : List Char) :
    likeMatch ('%' :: ps) s = true ↔ ∃ t, t <:+ s ∧ likeMatch ps t = true := by
  simp [likeMatch, List.any_eq_true, List.mem_tails]

/-- The pattern consisting of a single percent matches every string. -/
theorem likeMatch_pct_nil (u : List Char) : likeMatch ('%' :: []) u = true := by
  rw [likeMatch_pct_iff]
  exact ⟨[], ⟨u, by simp⟩, rfl⟩

/-- A literal pattern character against a nonempty string: the characters
must agree and the rest must match. -/
theorem likeMatch_lit (c : Char) (hp : (c == '%') = false) (hu : (c == '_') = false)
    (ps : List Char) (a : Char) (s : List Char) :
    likeMatch (c :: ps) (a :: s) = ((c == a) && likeMatch ps s) := by
  simp [likeMatch, hp, hu]

/-- A literal pattern character never matches the empty string. -/
theorem likeMatch_lit_nil (c : Char) (hp : (c == '%') = false) (ps : List Char) :
    likeMatch (c :: ps) [] = false := by
  simp [likeMatch, hp]

/-- A block of literal characters followed by a trailing percent matches
exactly the strings beginning with that block. -/
theorem likeMatch_lits_pct (l : List Char)
    (hl : ∀ c ∈ l, (c == '%') = false ∧ (c == '_') = false) (s : List Char) :
    (likeMatch (l ++ ['%']) s = true ↔ l <+: s) := by
  induction l generalizing s with
  | nil =>
    constructor
    · intro _; exact ⟨s, rfl⟩
    · intro _; exact likeMatch_pct_nil s
  | cons c l ih =>
    have hc := hl c (List.mem_cons_self c l)
    cases s with
    | nil =>
      rw [List.cons_append, likeMatch_lit_nil c hc.1]
      constructor
      · intro h; cases h
      · rintro ⟨r, hr⟩; simp at hr
    | cons a s =>
      rw [List.cons_append, likeMatch_lit c hc.1 hc.2, Bool.and_eq_true,
        ih fun c hcm => hl c (List.mem_cons_of_mem _ hcm), beq_iff_eq]
      constructor
      · rintro ⟨rfl, r, hr⟩
        exact ⟨r, by rw [List.cons_append, hr]⟩
      · rintro ⟨r, hr⟩
        rw [List.cons_append] at hr
        injection hr with h1 h2
        exact ⟨h1, r, h2⟩

/-- The LIKE pattern percent-literals-percent matches exactly the strings
containing the literal block as a contiguous run. -/
theorem likeMatch_pct_lits_pct (l : List Char)
    (hl : ∀ c ∈ l, (c == '%') = false ∧ (c == '_') = false) (s : List Char) :
    (likeMatch ('%' :: (l ++ ['%'])) s = true ↔ l <:+: s) := by
  rw [likeMatch_pct_iff]
  constructor
  · rintro ⟨t, ⟨p, hp⟩, hm⟩
    obtain ⟨r, hr⟩ := (likeMatch_lits_pct l hl t).mp hm
    exact ⟨p, r, by rw [List.append_assoc, hr, hp]⟩
  · rintro ⟨u, v, huv⟩
    refine ⟨l ++ v, ⟨u, by rw [← List.append_assoc, huv]⟩, ?_⟩
    exact (likeMatch_lits_pct l hl (l ++ v)).mpr ⟨v, rfl⟩

/-- The source filter condition ilike with pattern percent-ice-percent
holds exactly when the spec condition holds: the term string
case-insensitively contains the substring ice. -/
theorem ilike_ice_iff (s : String) :
    (ilike s "%ice%" = true ↔ spec_ci_contains "ice" s) := by
  have h1 : lowerStr "%ice%" = '%' :: (['i', 'c', 'e'] ++ ['%']) := by decide
  have h2 : lowerStr "ice" = ['i', 'c', 'e'] := by decide
  rw [ilike, h1, likeMatch_pct_lits_pct _ (by decide), spec_ci_contains, h2]

/-- Boolean form of ilike_ice_iff. -/
theorem ilike_eq_decide (s : String) :
    ilike s "%ice%" = decide (spec_ci_contains "ice" s) := by
  by_cases h : spec_ci_contains "ice" s
  · rw [decide_eq_true h, (ilike_ice_iff s).mpr h]
  · rw [decide_eq_false h]
    exact Bool.eq_false_iff.mpr fun hb => h ((ilike_ice_iff s).mp hb)

/-- Filtering an association list to its uppercase-named keys preserves
lookup of any uppercase-named key. -/
theorem lookup_filter_upper (cfg : List (String × String)) (k : String)
    (hk : isUpperName k = true) :
    List.lookup k (cfg.filter fun kv => isUpperName kv.1) = List.lookup k cfg := by
  induction cfg with
  | nil => rfl
  | cons kv rest ih =>
    obtain ⟨k1, v1⟩ := kv
    rw [List.filter_cons]
    by_cases hkv : isUpperName k1 = true
    · simp only [hkv, if_pos]
      by_cases he : (k == k1) = true
      · simp [List.lookup, he]
      · simp only [Bool.not_eq_true] at he
        simp [List.lookup, he, ih]
    · have hne : (k == k1) = false := by
        apply beq_eq_false_iff_ne.mpr
        intro he
        rw [he] at hk
        exact hkv hk
      simp only [Bool.not_eq_true] at hkv
      simp [hkv, List.lookup, hne, ih]

/-- If the head of a list exists under head-option, it is a member. -/
theorem mem_of_head?_eq_some {α : Type} {l : List α} {a : α}
    (h : l.head? = some a) : a ∈ l := by
  cases l with
  | nil => cases h
  | cons b l =>
    injection h with h
    rw [h]
    exact List.mem_cons_self a l

/-- A list with a member has a head under head-option. -/
theorem head?_isSome_of_mem {α : Type} {l : List α} {a : α}
    (h : a ∈ l) : l.head?.isSome = true := by
  cases l with
  | nil => cases h
  | cons b l => rfl

example : ilike "White ice" "%ice%" = true := by decide
example : ilike "POLICE" "%ice%" = true := by decide
example : ilike "water" "%ice%" = false := by decide
example : spec_ci_contains "ice" "White ICE" := by decide
example : check_database [] =
    ["White ice exists: False", "Young ice exists: False",
     "Total terms in database: 0", "", "First 10 terms:", "",
     "Terms containing \x27ice\x27: 0"] := by decide

/-- Claim C1: for every database state, the set of rows returned by the
contains-ice filter (ilike with the pattern percent-ice-percent) is a
superset of the set of rows whose term_string case-insensitively contains
the substring ice. -/
theorem C1_ice_filter_superset (db : List Term) (t : Term) (ht : t ∈ db)
    (hci : spec_ci_contains "ice" t.term_string) : t ∈ ice_terms db := by
  unfold ice_terms
  refine List.mem_filter.mpr ⟨ht, ?_⟩
  exact (ilike_ice_iff t.term_string).mpr hci

theorem C1_ice_filter_superset_witness :
    (⟨1, "White ice", "vernacular"⟩ : Term) ∈ [(⟨1, "White ice", "vernacular"⟩ : Term)] ∧
    spec_ci_contains "ice" (⟨1, "White ice", "vernacular"⟩ : Term).term_string ∧
    (⟨1, "White ice", "vernacular"⟩ : Term) ∈ ice_terms [⟨1, "White ice", "vernacular"⟩] :=
  ⟨by decide, by decide, C1_ice_filter_superset _ _ (by decide) (by decide)⟩

/-- Claim C2: the value printed in the Total terms in database line equals
the exact number of rows in the Term table. -/
theorem C2_total_count (db : List Term) :
    (check_database db)[2]? = some ("Total terms in database: " ++ toString db.length) := rfl

/-- Claim C3: whenever the database holds at least one row whose
term_string is exactly White ice, the first printed line reads
White ice exists: True. -/
theorem C3_white_ice_exists (db : List Term) (t : Term) (ht : t ∈ db)
    (hts : t.term_string = "White ice") :
    (check_database db)[0]? = some "White ice exists: True" := by
  have hmem : t ∈ db.filter fun u => u.term_string == "White ice" :=
    List.mem_filter.mpr ⟨ht, by simp [hts]⟩
  have hsome : (white_ice db).isSome = true := head?_isSome_of_mem hmem
  simp [check_database, pyBool, hsome]

theorem C3_white_ice_exists_witness :
    (⟨2, "White ice", "canonical"⟩ : Term) ∈ [(⟨2, "White ice", "canonical"⟩ : Term)] ∧
    (⟨2, "White ice", "canonical"⟩ : Term).term_string = "White ice" ∧
    (check_database [⟨2, "White ice", "canonical"⟩])[0]? = some "White ice exists: True" :=
  ⟨by decide, by decide,
    C3_white_ice_exists [⟨2, "White ice", "canonical"⟩] ⟨2, "White ice", "canonical"⟩
      (by decide) (by decide)⟩

/-- Claim C4: run against an empty table, the script prints a zero total
and lists no term rows in either the first-ten section or the ice
section. -/
theorem C4_empty_table : check_database [] =
    ["White ice exists: False", "Young ice exists: False",
     "Total terms in database: 0", "", "First 10 terms:", "",
     "Terms containing \x27ice\x27: 0"] := by decide

/-- Claim C5: the application factory, given a configuration object,
produces an application whose config carries the configuration values of
that object: every uppercase-named setting of the object is readable from
the config of the produced instance. -/
theorem C5_factory_applies_config (cfg : List (String × String)) (k v : String)
    (hk : isUpperName k = true) (hv : List.lookup k cfg = some v) :
    List.lookup k (create_app cfg).config = some v := by
  unfold create_app from_object
  rw [List.append_nil, lookup_filter_upper cfg k hk, hv]

theorem C5_factory_applies_config_witness :
    isUpperName "SQLALCHEMY_DATABASE_URI" = true ∧
    List.lookup "SQLALCHEMY_DATABASE_URI"
      [("SQLALCHEMY_DATABASE_URI", "sqlite:///yamz.db")] = some "sqlite:///yamz.db" ∧
    List.lookup "SQLALCHEMY_DATABASE_URI"
      (create_app [("SQLALCHEMY_DATABASE_URI", "sqlite:///yamz.db")]).config =
      some "sqlite:///yamz.db" :=
  ⟨by decide, by decide, C5_factory_applies_config _ _ _ (by decide) (by decide)⟩

/-- Claim C6: check_database performs the case-insensitive substring
lookup (its ilike filter coincides with the spec condition), performs the
exact-match lookups on term_string, counts the total rows, and its listing
section prints the first rows, at most ten of them, even when the table
holds more than ten rows. -/
theorem C6_query_shapes (db : List Term) :
    ice_terms db = db.filter (fun t => decide (spec_ci_contains "ice" t.term_string)) ∧
    white_ice db = (db.filter fun t => t.term_string == "White ice").head? ∧
    young_ice db = (db.filter fun t => t.term_string == "Young ice").head? ∧
    totalTerms db = db.length ∧
    ((firstTen db).map termLine).length = min 10 db.length ∧
    min 10 db.length ≤ 10 ∧
    firstTen db <+: db := by
  refine ⟨?_, rfl, rfl, rfl, ?_, Nat.min_le_left 10 db.length,
    ⟨db.drop 10, List.take_append_drop 10 db⟩⟩
  · unfold ice_terms
    exact List.filter_congr fun t _ => ilike_eq_decide t.term_string
  · rw [List.length_map, firstTen, List.length_take]

/-- Claim C7: the script is pure read-only reporting: every database
operation it issues leaves the table unchanged, and running its whole
operation sequence returns the initial state. -/
theorem C7_read_only (db : List Term) :
    (∀ op ∈ check_database_ops, DBOp.exec op db = db) ∧
    check_database_ops.foldl (fun s op => DBOp.exec op s) db = db := by
  constructor
  · intro op hop
    simp [check_database_ops] at hop
    rcases hop with rfl | rfl | rfl | rfl | rfl <;> rfl
  · rfl

/-- Success of the whole run is exactly success of every operation. -/
theorem runOps_ok_iff (err : DBOp → Option String) (ops : List DBOp) :
    (runOps err ops = Except.ok () ↔ ∀ op ∈ ops, err op = none) := by
  induction ops with
  | nil => simp [runOps]
  | cons op rest ih =>
    cases h : err op with
    | some e => simp [runOps, h]
    | none => simp [runOps, h, ih]

/-- An error outcome of the run is the error raised by one of the
operations, propagated unchanged. -/
theorem runOps_error_mem (err : DBOp → Option String) (ops : List DBOp) (e : String)
    (h : runOps err ops = Except.error e) : ∃ op ∈ ops, err op = some e := by
  induction ops with
  | nil => cases h
  | cons op rest ih =>
    rcases hop : err op with _ | e2
    · simp only [runOps, hop] at h
      obtain ⟨op2, hmem, he⟩ := ih h
      exact ⟨op2, List.mem_cons_of_mem _ hmem, he⟩
    · simp only [runOps, hop] at h
      injection h with h
      exact ⟨op, List.mem_cons_self op rest, by rw [hop, h]⟩

/-- Claim C8: no error handling: the exit status is zero exactly when
every query succeeds, it is otherwise one, and a failing run propagates
the error some query raised. -/
theorem C8_exit_status (err : DBOp → Option String) :
    (script_exit_code err = 0 ↔ ∀ op ∈ check_database_ops, err op = none) ∧
    (script_exit_code err = 0 ∨ script_exit_code err = 1) ∧
    (∀ e, runOps err check_database_ops = Except.error e →
      ∃ op ∈ check_database_ops, err op = some e) := by
  refine ⟨?_, ?_, fun e he => runOps_error_mem err check_database_ops e he⟩
  · rcases hr : runOps err check_database_ops with e | u
    · constructor
      · intro h0
        exfalso
        simp [script_exit_code, hr] at h0
      · intro hall
        have hok := (runOps_ok_iff err check_database_ops).mpr hall
        rw [hr] at hok
        cases hok
    · cases u
      constructor
      · intro _
        exact (runOps_ok_iff err check_database_ops).mp hr
      · intro _
        simp [script_exit_code, hr]
  · rcases hr : runOps err check_database_ops with e | u
    · exact Or.inr (by simp [script_exit_code, hr])
    · exact Or.inl (by simp [script_exit_code, hr])

/-- Claim C9: if the exact-match lookup finds a White ice row, that row
also belongs to the ilike result, so the ice listing is nonempty and the
printed ice count is at least one. -/
theorem C9_white_in_ice_terms (db : List Term) (t : Term)
    (h : white_ice db = some t) :
    t ∈ ice_terms db ∧ 1 ≤ (ice_terms db).length ∧
    ice_count_line db =
      "Terms containing \x27ice\x27: " ++ toString (ice_terms db).length := by
  have hmem : t ∈ db.filter fun u => u.term_string == "White ice" :=
    mem_of_head?_eq_some h
  have ht : t ∈ db := (List.mem_filter.mp hmem).1
  have hts : t.term_string = "White ice" := eq_of_beq (List.mem_filter.mp hmem).2
  have hin : t ∈ ice_terms db := by
    refine List.mem_filter.mpr ⟨ht, ?_⟩
    rw [hts]
    decide
  exact ⟨hin, List.length_pos.mpr (List.ne_nil_of_mem hin), rfl⟩

theorem C9_white_in_ice_terms_witness :
    white_ice [(⟨3, "White ice", "draft"⟩ : Term)] = some ⟨3, "White ice", "draft"⟩ ∧
    ((⟨3, "White ice", "draft"⟩ : Term) ∈ ice_terms [⟨3, "White ice", "draft"⟩] ∧
      1 ≤ (ice_terms [(⟨3, "White ice", "draft"⟩ : Term)]).length ∧
      ice_count_line [(⟨3, "White ice", "draft"⟩ : Term)] =
        "Terms containing \x27ice\x27: " ++
          toString (ice_terms [(⟨3, "White ice", "draft"⟩ : Term)]).length) :=
  ⟨by decide, C9_white_in_ice_terms _ _ (by decide)⟩

/-- Claim C10: the number printed in the ice-count line equals the number
of term lines printed immediately after it: the tail of the output is the
count line followed by one line per fetched ice term, and the count in the
line is the length of that very list of lines. -/
theorem C10_count_equals_lines (db : List Term) :
    (ice_count_line db :: (ice_terms db).map iceLine) <:+ check_database db ∧
    ice_count_line db =
      "Terms containing \x27ice\x27: " ++ toString ((ice_terms db).map iceLine).length := by
  constructor
  · refine ⟨["White ice exists: " ++ pyBool (white_ice db).isSome,
      "Young ice exists: " ++ pyBool (young_ice db).isSome,
      "Total terms in database: " ++ toString (totalTerms db),
      "", "First 10 terms:"] ++ (firstTen db).map termLine ++ [""], ?_⟩
    simp [check_database]
  · simp [ice_count_line, List.length_map]
